import Mathlib

/-!
Verification of the credential/presentation verification pipeline of the
`wdroplet/sdk` repository (`src/modules/schema.js`, VC module), as a shallow
embedding in Lean 4.

JavaScript semantics conventions used throughout:
* an absent field or `null`/`undefined` argument is `Option.none`;
* a thrown JS exception is `Except.error`; `JsError.error m` embeds
  `new Error(m)` and `JsError.typeError m` embeds a runtime `TypeError`
  raised by dereferencing `null`/`undefined`;
* external collaborators (the vc-js library, the jsonschema validator, the
  blake2 hash, the Dock chain APIs) are parameters of the embedding: the
  spec treats them as collaborator interfaces.
-/

/-- A JavaScript exception: either an explicitly constructed `Error` with its
message, or a runtime `TypeError` from dereferencing `null`/`undefined`. -/
inductive JsError where
  | error (message : String)
  | typeError (message : String)
  deriving DecidableEq, Repr

/-- Source: `export const RevRegType = 'CredentialStatusList2017';` -/
def RevRegType : String := "CredentialStatusList2017"

/-- Source: `export const DockRevRegQualifier = 'rev-reg:dock:';` -/
def DockRevRegQualifier : String := "rev-reg:dock:"

/-- Modelled from the spec: the registry id byte width `RevRegIdByteSize`
is imported from `./revocation`, whose constants are not under `src/`;
the spec fixes the status identifier to a 32-byte hex registry id. -/
def RevRegIdByteSize : Nat := 32

/-- Modelled from the spec: the revocation entry byte width `RevEntryByteSize`
is imported from `./revocation`, whose constants are not under `src/`; the
spec says the revocation id has the registry's fixed entry width (32 bytes). -/
def RevEntryByteSize : Nat := 32

/-- JavaScript `s.startsWith(p)` (kernel-reducible, via the character list). -/
def jsStartsWith (s p : String) : Bool := p.data.isPrefixOf s.data

/-- JavaScript `s.slice(n)` for a non-negative `n` (kernel-reducible). -/
def jsDrop (s : String) (n : Nat) : String := String.mk (s.data.drop n)

/-- Modelled from the spec: `isHexWithGivenByteSize` lives in `utils/codec`,
which is not under `src/`. Per the spec, the status id remainder must decode
as fixed-width hex: a `0x` prefix followed by exactly `byteSize` bytes of
hex digits. -/
def isHexWithGivenByteSize (s : String) (byteSize : Nat) : Bool :=
  jsStartsWith s "0x" && ((jsDrop s 2).length == byteSize * 2)
    && (jsDrop s 2).data.all (fun c => c.isDigit || (("abcdefABCDEF").data.contains c))

/-- The `credentialStatus` field of a credential. Both sub-fields may be
absent in a raw JSON document. -/
structure CredStatus where
  id : Option String
  type : Option String
  deriving DecidableEq, Repr

/-- The `credentialSchema` field of a credential. -/
structure CredSchema where
  id : String
  type : Option String
  deriving DecidableEq, Repr

/-- A credential subject object: its optional `id` property plus the other
properties (modelled as an association list of string fields; subjects are
assumed not to carry a `length` property, so a single subject object is
falsy under the `.length` test of the source). -/
structure Subject where
  id : Option String
  fields : List (String × String)
  deriving DecidableEq, Repr

/-- The `credentialSubject` field: either a single subject object or an
ordered sequence of subject objects. -/
inductive CredSubject where
  | single (s : Subject)
  | seq (l : List Subject)
  deriving DecidableEq, Repr

/-- The parts of a VCDM credential that the verification pipeline inspects. -/
structure Credential where
  id : String
  credentialStatus : Option CredStatus
  credentialSchema : Option CredSchema
  credentialSubject : Option CredSubject
  deriving DecidableEq, Repr

/-- Verification result shape returned by vc-js and by the pipeline:
`{verified, error?, results?}`; `results` stands in for the extra
suite-reported proof metadata of a full vc-js verification result. -/
structure VerificationResult where
  verified : Bool
  error : Option String := none
  results : List String := []
  deriving DecidableEq, Repr

/-- The Dock revocation API collaborator:
`getIsRevoked(registryId, revokeId) → boolean`. -/
structure DockRevApi where
  getIsRevoked : String → String → Bool

/-- The `revocationApi` map: "revocation type -> revocation API"; only the
`dock` key is recognized. An empty object is `⟨none⟩`. -/
structure RevocationApi where
  dock : Option DockRevApi

/-- Source: `getSuiteFromKeyDoc` key document (`id`, `controller`, `type`). -/
structure KeyDoc where
  id : String
  controller : String
  type : String
  deriving DecidableEq, Repr

/-- The three recognized verification key names from `vc/custom_crypto`. -/
def EcdsaSecp256k1VerKeyName : String := "EcdsaSecp256k1VerificationKey2019"

/-- Ed25519 verification key name from `vc/custom_crypto`. -/
def Ed25519VerKeyName : String := "Ed25519VerificationKey2018"

/-- Sr25519 verification key name from `vc/custom_crypto`. -/
def Sr25519VerKeyName : String := "Sr25519VerificationKey2020"

/-- The signature suite classes the selector can instantiate. -/
inductive SuiteCls where
  | EcdsaSepc256k1Signature2019
  | Ed25519Signature2018
  | Sr25519Signature2020
  deriving DecidableEq, Repr

/-- A constructed suite instance: the chosen class together with the
verification method it was bound to (`verificationMethod: keyDoc.id`). -/
structure Suite where
  cls : SuiteCls
  verificationMethod : String
  deriving DecidableEq, Repr

/-- Source `getSuiteFromKeyDoc`: switch on `keyDoc.type` over the three
recognized names, throwing `Unknown key type ...` on any other tag, and
instantiate the class with `verificationMethod: keyDoc.id`. -/
def getSuiteFromKeyDoc (keyDoc : KeyDoc) : Except JsError Suite :=
  if keyDoc.type = EcdsaSecp256k1VerKeyName then
    .ok { cls := .EcdsaSepc256k1Signature2019, verificationMethod := keyDoc.id }
  else if keyDoc.type = Ed25519VerKeyName then
    .ok { cls := .Ed25519Signature2018, verificationMethod := keyDoc.id }
  else if keyDoc.type = Sr25519VerKeyName then
    .ok { cls := .Sr25519Signature2020, verificationMethod := keyDoc.id }
  else
    .error (.error ("Unknown key type " ++ keyDoc.type ++ "."))

/-- Source `hasDockRevocation`: the `&&` chain
`credential.credentialStatus && (type === RevRegType) && id.startsWith(...)
&& isHexWithGivenByteSize(id.slice(...), RevRegIdByteSize)`, evaluated
left-to-right; accessing `.startsWith` on an absent `id` throws a
`TypeError`. -/
def hasDockRevocation (credential : Credential) : Except JsError Bool :=
  match credential.credentialStatus with
  | none => .ok false
  | some cs =>
    if cs.type = some RevRegType then
      match cs.id with
      | none => .error (.typeError "Cannot read properties of undefined")
      | some i =>
        .ok (jsStartsWith i DockRevRegQualifier
          && isHexWithGivenByteSize (jsDrop i DockRevRegQualifier.length) RevRegIdByteSize)
    else
      .ok false

/-- Source `isRevocationCheckNeeded`:
`!!credStatus && (forceRevocationCheck || !!revocationApi)`. -/
def isRevocationCheckNeeded (credStatus : Option CredStatus) (forceRevocationCheck : Bool)
    (revocationApi : Option RevocationApi) : Bool :=
  credStatus.isSome && (forceRevocationCheck || revocationApi.isSome)

/-- Source `getDockRevIdFromCredential`:
`blake2AsHex(credential.id, RevEntryByteSize * 8)`; the blake2 hash is an
external primitive, passed in as `blake2 : Nat → String → String`
(bit-width, message). -/
def getDockRevIdFromCredential (blake2 : Nat → String → String)
    (credential : Credential) : String :=
  blake2 (RevEntryByteSize * 8) credential.id

/-- Source `checkRevocationStatus`: dereferencing `.dock` on a `null`
`revocationApi` throws a `TypeError`; a supplied api without a `dock` key
throws the configuration error; a credential that is not Dock-revocation
formatted yields a `verified:false` format verdict; otherwise the registry
id is the status id with the qualifier stripped, the revocation id is the
blake2 hash of the credential id, and the service verdict is translated. -/
def checkRevocationStatus (blake2 : Nat → String → String) (credential : Credential)
    (revocationApi : Option RevocationApi) : Except JsError VerificationResult :=
  match revocationApi with
  | none => .error (.typeError "Cannot read properties of null")
  | some api =>
    match api.dock with
    | none => .error (.error "Only Dock revocation support is present as of now.")
    | some dockAPI => do
      let has ← hasDockRevocation credential
      if !has then
        .ok { verified := false,
              error := some "The credential status does not have the format required by Dock" }
      else
        match credential.credentialStatus with
        | none => .error (.typeError "Cannot read properties of undefined")
        | some cs =>
          match cs.id with
          | none => .error (.typeError "Cannot read properties of undefined")
          | some i =>
            let regId := jsDrop i DockRevRegQualifier.length
            let revId := getDockRevIdFromCredential blake2 credential
            if dockAPI.getIsRevoked regId revId then
              .ok { verified := false, error := some "Revocation check failed" }
            else
              .ok { verified := true }

/-- A resolved schema document as seen by `validateCredentialSchema`: its
optional `required` list and an optional nested `schema` body (documents
returned by `Schema.get` wrap the JSON schema under a `schema` key, hence
the source's `schema.schema || schema` fallback). -/
inductive SchemaDoc where
  | mk (required : Option (List String)) (schema : Option SchemaDoc)

/-- The `required` field of a schema document. -/
def SchemaDoc.required : SchemaDoc → Option (List String)
  | .mk r _ => r

/-- The nested `schema` field of a schema document. -/
def SchemaDoc.schema : SchemaDoc → Option SchemaDoc
  | .mk _ s => s

/-- Source lines
`const credentialSubject = credential.credentialSubject || [];` and
`const subjects = credentialSubject.length ? credentialSubject : [credentialSubject];`:
an absent subject becomes `[]`, whose `length` is falsy, so the loop runs
once over the spread copy `{...[]}` (an empty object); the same happens for
a present empty sequence; a single subject object (no `length` property,
hence falsy) is wrapped in a one-element list; a non-empty sequence is used
as is. -/
def subjectsOf : Option CredSubject → List Subject
  | none => [{ id := none, fields := [] }]
  | some (.single s) => [s]
  | some (.seq []) => [{ id := none, fields := [] }]
  | some (.seq (s :: rest)) => s :: rest

/-- The validation target of the source call
`validate(subject, schema.schema || schema, {throwError: true})`. -/
def schemaTarget (schema : SchemaDoc) : SchemaDoc :=
  match schema.schema with
  | some inner => inner
  | none => schema

/-- The body of the subject loop of `validateCredentialSchema`: each subject
is spread-copied, its `id` is deleted unless the schema requires it, and the
external `validate` (parameter `validateFn`, throwing on mismatch) is run
against the target; the first thrown validation error propagates. -/
def validateSubjects (validateFn : Subject → SchemaDoc → Except JsError Unit)
    (requiresID : Bool) (target : SchemaDoc) :
    List Subject → Except JsError Unit
  | [] => .ok ()
  | s :: rest =>
    let subject := if requiresID then s else { s with id := none }
    match validateFn subject target with
    | .ok _ => validateSubjects validateFn requiresID target rest
    | .error e => .error e

/-- Source line
`const requiresID = schema.required && schema.required.indexOf('id') > -1;`:
falsy when `required` is absent. -/
def requiresIDOf (schema : SchemaDoc) : Bool :=
  match schema.required with
  | some req => req.contains "id"
  | none => false

/-- Source `validateCredentialSchema`: compute `requiresID`, then run the
subject loop over `subjectsOf`, returning `true` when every subject
validates. -/
def validateCredentialSchema (validateFn : Subject → SchemaDoc → Except JsError Unit)
    (credential : Credential) (schema : SchemaDoc) : Except JsError Bool :=
  match validateSubjects validateFn (requiresIDOf schema) (schemaTarget schema)
      (subjectsOf credential.credentialSubject) with
  | .ok _ => .ok true
  | .error e => .error e

/-- The Dock schema API collaborator: `Schema.get(id, dockApi)` is modelled
as its `get` field (it reads the chain's blob storage, which is outside the
verification core). -/
structure DockSchemaApi where
  get : String → Except JsError SchemaDoc

/-- The `schemaApi` map: "schema type -> schema API"; only the `dock` key is
recognized. An empty object is `⟨none⟩`. -/
structure SchemaApi where
  dock : Option DockSchemaApi

/-- JavaScript string interpolation `${e}` applied to a thrown value. -/
def jsErrorToString : JsError → String
  | .error m => "Error: " ++ m
  | .typeError m => "TypeError: " ++ m

/-- Source `getAndValidateSchemaIfPresent`: the whole check is guarded by
`if (schemaApi)` — with no schema api the function returns silently. When
both `credentialSubject` and `credentialSchema` are present, a supplied api
without a `dock` key throws; otherwise `Schema.get` and
`validateCredentialSchema` run inside a try/catch whose catch rethrows
`Schema validation failed: ...`. -/
def getAndValidateSchemaIfPresent (validateFn : Subject → SchemaDoc → Except JsError Unit)
    (credential : Credential) (schemaApi : Option SchemaApi) : Except JsError Unit :=
  match schemaApi with
  | none => .ok ()
  | some api =>
    if credential.credentialSubject.isSome && credential.credentialSchema.isSome then
      match api.dock with
      | none => .error (.error "Only Dock schemas are supported as of now.")
      | some dockApi =>
        match credential.credentialSchema with
        | none => .ok ()
        | some cschema =>
          match (do
              let schema ← dockApi.get cschema.id
              validateCredentialSchema validateFn credential schema :
              Except JsError Bool) with
          | .ok _ => .ok ()
          | .error e => .error (.error ("Schema validation failed: " ++ jsErrorToString e))
    else
      .ok ()

/-- The options object of `verifyCredential`/`verifyPresentation`, with the
source's defaults `forceRevocationCheck = true`, `revocationApi = null`,
`schemaApi = null` (resolver, compactProof, challenge and domain only feed
the external vc-js calls and are absorbed into the vc-js oracles). -/
structure VerifyOptions where
  forceRevocationCheck : Bool := true
  revocationApi : Option RevocationApi := none
  schemaApi : Option SchemaApi := none

/-- Source `verifyCredential`: schema check first (may throw), then the
vc-js credential verification (oracle `vcjsVerifyCredential`), then — only
if that verdict is `verified` and a revocation check is needed — the
revocation check, whose failing verdict is returned; in every other case
the vc-js verdict is returned in full. -/
def verifyCredential (vcjsVerifyCredential : Credential → VerificationResult)
    (blake2 : Nat → String → String)
    (validateFn : Subject → SchemaDoc → Except JsError Unit)
    (credential : Credential) (opts : VerifyOptions) :
    Except JsError VerificationResult := do
  let _ ← getAndValidateSchemaIfPresent validateFn credential opts.schemaApi
  let credVer := vcjsVerifyCredential credential
  if credVer.verified
      && isRevocationCheckNeeded credential.credentialStatus opts.forceRevocationCheck
           opts.revocationApi then
    let revResult ← checkRevocationStatus blake2 credential opts.revocationApi
    if !revResult.verified then
      return revResult
    else
      return credVer
  else
    return credVer

/-- Source `isVerifiedCredential`: boolean projection of the verdict. -/
def isVerifiedCredential (vcjsVerifyCredential : Credential → VerificationResult)
    (blake2 : Nat → String → String)
    (validateFn : Subject → SchemaDoc → Except JsError Unit)
    (credential : Credential) (opts : VerifyOptions) : Except JsError Bool := do
  let result ← verifyCredential vcjsVerifyCredential blake2 validateFn credential opts
  return result.verified

/-- The parts of a presentation the verifier inspects. -/
structure Presentation where
  verifiableCredential : List Credential

/-- One iteration of the credential loop of `verifyPresentation`: the
revocation check when `isRevocationCheckNeeded`, whose failing verdict is
surfaced as `some res` (the early `return res` of the source), then the
schema check (which throws on failure); `none` means the loop continues. -/
def presCredCheck (blake2 : Nat → String → String)
    (validateFn : Subject → SchemaDoc → Except JsError Unit)
    (forceRevocationCheck : Bool) (revocationApi : Option RevocationApi)
    (schemaApi : Option SchemaApi) (credential : Credential) :
    Except JsError (Option VerificationResult) :=
  if isRevocationCheckNeeded credential.credentialStatus forceRevocationCheck revocationApi then
    match checkRevocationStatus blake2 credential revocationApi with
    | .error e => .error e
    | .ok res =>
      if !res.verified then
        .ok (some res)
      else
        match getAndValidateSchemaIfPresent validateFn credential schemaApi with
        | .error e => .error e
        | .ok _ => .ok none
  else
    match getAndValidateSchemaIfPresent validateFn credential schemaApi with
    | .error e => .error e
    | .ok _ => .ok none

/-- The credential loop of `verifyPresentation`, iterating in order and
stopping at the first per-credential failure. -/
def presCredLoop (blake2 : Nat → String → String)
    (validateFn : Subject → SchemaDoc → Except JsError Unit)
    (forceRevocationCheck : Bool) (revocationApi : Option RevocationApi)
    (schemaApi : Option SchemaApi) :
    List Credential → Except JsError (Option VerificationResult)
  | [] => .ok none
  | c :: rest =>
    match presCredCheck blake2 validateFn forceRevocationCheck revocationApi schemaApi c with
    | .ok none => presCredLoop blake2 validateFn forceRevocationCheck revocationApi schemaApi rest
    | .ok (some res) => .ok (some res)
    | .error e => .error e

/-- Source `verifyPresentation`: the envelope proof is verified by vc-js
(oracle `vcjsVerify`); when it is `verified`, the contained credentials are
iterated in order, returning the first failing per-credential result; when
every credential passes — or the envelope itself failed — the envelope
verdict is returned. -/
def verifyPresentation (vcjsVerify : Presentation → VerificationResult)
    (blake2 : Nat → String → String)
    (validateFn : Subject → SchemaDoc → Except JsError Unit)
    (presentation : Presentation) (opts : VerifyOptions) :
    Except JsError VerificationResult :=
  let presVer := vcjsVerify presentation
  if presVer.verified then
    match presCredLoop blake2 validateFn opts.forceRevocationCheck opts.revocationApi
        opts.schemaApi presentation.verifiableCredential with
    | .error e => .error e
    | .ok (some res) => .ok res
    | .ok none => .ok presVer
  else
    .ok presVer

/-- Source: `export const BlobQualifier = 'blob:dock:';` -/
def BlobQualifier : String := "blob:dock:"

/-- Source `updateSchemaValidatorWithSchemas` inner rewrite: a popped
reference beginning with the non-standard punctuation `blob:dock/:` is
rewritten to the canonical qualified form
`BlobQualifier + nextSchemaId.slice('blob:dock/:'.length)`. -/
def rewriteRef (nextSchemaId : String) : String :=
  if jsStartsWith nextSchemaId "blob:dock/:" then
    BlobQualifier ++ (jsDrop nextSchemaId ("blob:dock/:").length)
  else nextSchemaId

/-- Source `importNextSchema`, with the validator bookkeeping modelled from
the spec. The loop pops the queue of unresolved references; a falsy (absent
or empty) head ends the import; a reference under the root schema's
`#/$defs` namespace is skipped without resolution; any other reference is
resolved (`resolveRefs` abstracts `Schema.resolveSchema` composed with the
validator's reference scan) and registered.
Modelled from the spec: the validator (`validator.addSchema` /
`validator.unresolvedRefs` of the external jsonschema dependency, not under
`src/`) never re-queues a reference once registered or already queued, so
newly found references are filtered against the registered list and the
remaining queue. Fuel-indexed; `none` means the fuel ran out, `some log`
means the import completed after fetching exactly the references in `log`,
in order. -/
def importLoop (resolveRefs : String → List String) (initialSchemaId : String) :
    Nat → List String → List String → Option (List String)
  | 0, _, _ => none
  | Nat.succ fuel, registered, queue =>
    match queue with
    | [] => some []
    | r :: rest =>
      if r = "" then some []
      else
        let r' := rewriteRef r
        if jsStartsWith r' (initialSchemaId ++ "#/$defs") then
          importLoop resolveRefs initialSchemaId fuel registered rest
        else
          let registered' := r' :: registered
          let fresh := ((resolveRefs r').dedup).filter
            (fun x => decide (x ∉ registered') && decide (x ∉ rest))
          match importLoop resolveRefs initialSchemaId fuel registered' (rest ++ fresh) with
          | none => none
          | some log => some (r' :: log)

/-- Source `updateSchemaValidatorWithSchemas` entry: the root schema is
added to the validator first (`validator.addSchema(initialSchema)`), the
root id defaults to `/` when falsy (`initialSchema.id || '/'`), and the
initial queue is the root schema's own references (deduplicated and not
re-queueing the registered root, per the spec's validator contract); then
the import loop runs until the queue is empty. `initialIdOf` is the
source line `const initialSchemaId = initialSchema.id || '/';`. -/
def initialIdOf (rootId : Option String) : String :=
  match rootId with
  | some i => i
  | none => "/"

/-- Source `updateSchemaValidatorWithSchemas` body (see the entry doc
above): root registration, then the import loop. -/
def updateSchemaValidatorWithSchemas (resolveRefs : String → List String)
    (rootId : Option String) (rootRefs : List String) (fuel : Nat) :
    Option (List String) :=
  importLoop resolveRefs (initialIdOf rootId) fuel [initialIdOf rootId]
    ((rootRefs.dedup).filter (fun x => decide (x ≠ initialIdOf rootId)))

/-- Termination measure for the import loop: identifiers still unregistered
from the finite universe `U`, weighted, plus the queue length. -/
def importMeasure (U registered queue : List String) : Nat :=
  (U.toFinset \ registered.toFinset).card * (U.toFinset.card + 1) + queue.length

/-- A resolver that emits a brand-new identifier for every reference it is
asked to resolve: each resolution of `id` yields the single fresh reference
`id ++ "!"`, so no already-seen identifier is ever reintroduced — yet the
queue never empties. Used to separate the no-reintroduction condition from
termination of the import loop. -/
def freshChainResolver (id : String) : List String := [id ++ "!"]


/-- C4: for each of the three recognized algorithm tags `getSuiteFromKeyDoc`
returns the suite of the matching class, bound to the descriptor's `id` as
its verification method; any other tag raises an error naming the offending
tag. -/
theorem getSuiteFromKeyDoc_spec (keyDoc : KeyDoc) :
    (keyDoc.type = Ed25519VerKeyName →
      getSuiteFromKeyDoc keyDoc =
        .ok { cls := .Ed25519Signature2018, verificationMethod := keyDoc.id }) ∧
    (keyDoc.type = Sr25519VerKeyName →
      getSuiteFromKeyDoc keyDoc =
        .ok { cls := .Sr25519Signature2020, verificationMethod := keyDoc.id }) ∧
    (keyDoc.type = EcdsaSecp256k1VerKeyName →
      getSuiteFromKeyDoc keyDoc =
        .ok { cls := .EcdsaSepc256k1Signature2019, verificationMethod := keyDoc.id }) ∧
    (keyDoc.type ≠ Ed25519VerKeyName → keyDoc.type ≠ Sr25519VerKeyName →
      keyDoc.type ≠ EcdsaSecp256k1VerKeyName →
      getSuiteFromKeyDoc keyDoc =
        .error (.error ("Unknown key type " ++ keyDoc.type ++ "."))) := by
  refine ⟨?_, ?_, ?_, ?_⟩
  · intro h
    have h1 : Ed25519VerKeyName ≠ EcdsaSecp256k1VerKeyName := by decide
    simp [getSuiteFromKeyDoc, h, h1]
  · intro h
    have h1 : Sr25519VerKeyName ≠ EcdsaSecp256k1VerKeyName := by decide
    have h2 : Sr25519VerKeyName ≠ Ed25519VerKeyName := by decide
    simp [getSuiteFromKeyDoc, h, h1, h2]
  · intro h
    simp [getSuiteFromKeyDoc, h]
  · intro h1 h2 h3
    simp [getSuiteFromKeyDoc, h1, h2, h3]

/-- Witness for C4: a concrete Ed25519 descriptor yields the Ed25519 suite
bound to its id, and a concrete unrecognized tag yields the naming error. -/
theorem getSuiteFromKeyDoc_spec_witness :
    getSuiteFromKeyDoc
        { id := "did:dock:5C#keys-1", controller := "did:dock:5C",
          type := "Ed25519VerificationKey2018" }
      = .ok { cls := .Ed25519Signature2018, verificationMethod := "did:dock:5C#keys-1" } ∧
    getSuiteFromKeyDoc { id := "k1", controller := "c1", type := "BadKeyType" }
      = .error (.error ("Unknown key type " ++ "BadKeyType" ++ ".")) :=
  ⟨(getSuiteFromKeyDoc_spec _).1 rfl,
   (getSuiteFromKeyDoc_spec _).2.2.2 (by decide) (by decide) (by decide)⟩

/-- C5: `isRevocationCheckNeeded` is true iff the credential carries a
`credentialStatus` field and either the check is forced or a revocation
service object (possibly empty) was supplied. -/
theorem isRevocationCheckNeeded_spec (credStatus : Option CredStatus)
    (forceCheck : Bool) (revocationApi : Option RevocationApi) :
    isRevocationCheckNeeded credStatus forceCheck revocationApi = true ↔
      (credStatus.isSome = true ∧ (forceCheck = true ∨ revocationApi.isSome = true)) := by
  simp [isRevocationCheckNeeded]

/-- C10 (implicit): when `credentialStatus.type` matches the recognized
status-list type but `credentialStatus.id` is absent, `hasDockRevocation`
(and `checkRevocationStatus` with a compatible service) throws a `TypeError`
from dereferencing the missing id instead of returning a verdict; the
formatting predicate is total (returns `.ok`) whenever the id is a string,
or when the status itself is absent. -/
theorem hasDockRevocation_missing_id (credential : Credential) :
    (∀ cs, credential.credentialStatus = some cs → cs.type = some RevRegType →
      cs.id = none →
      hasDockRevocation credential
          = .error (.typeError "Cannot read properties of undefined") ∧
      ∀ (blake2 : Nat → String → String) (d : DockRevApi),
        checkRevocationStatus blake2 credential (some { dock := some d })
          = .error (.typeError "Cannot read properties of undefined")) ∧
    (∀ cs s, credential.credentialStatus = some cs → cs.id = some s →
      ∃ b, hasDockRevocation credential = .ok b) ∧
    (credential.credentialStatus = none → hasDockRevocation credential = .ok false) := by
  refine ⟨?_, ?_, ?_⟩
  · intro cs hcs htype hid
    have h1 : hasDockRevocation credential
        = .error (.typeError "Cannot read properties of undefined") := by
      simp [hasDockRevocation, hcs, htype, hid]
    refine ⟨h1, ?_⟩
    intro blake2 d
    simp only [checkRevocationStatus, h1]
    rfl
  · intro cs s hcs hid
    by_cases htype : cs.type = some RevRegType
    · exact ⟨jsStartsWith s DockRevRegQualifier
          && isHexWithGivenByteSize (jsDrop s DockRevRegQualifier.length) RevRegIdByteSize,
        by simp [hasDockRevocation, hcs, htype, hid]⟩
    · exact ⟨false, by simp [hasDockRevocation, hcs, htype]⟩
  · intro h
    simp [hasDockRevocation, h]

/-- Witness for C10: a concrete credential whose status has the recognized
type but no id makes both functions throw the `TypeError`. -/
theorem hasDockRevocation_missing_id_witness :
    hasDockRevocation
        { id := "cred-1", credentialStatus := some { id := none, type := some RevRegType },
          credentialSchema := none, credentialSubject := none }
      = .error (.typeError "Cannot read properties of undefined") ∧
    checkRevocationStatus (fun _ _ => "0xhash")
        { id := "cred-1", credentialStatus := some { id := none, type := some RevRegType },
          credentialSchema := none, credentialSubject := none }
        (some { dock := some { getIsRevoked := fun _ _ => false } })
      = .error (.typeError "Cannot read properties of undefined") :=
  ⟨((hasDockRevocation_missing_id _).1 _ rfl rfl rfl).1,
   ((hasDockRevocation_missing_id _).1 _ rfl rfl rfl).2 _ _⟩

/-- C6: for every credential and supplied revocation service,
`checkRevocationStatus` throws the configuration error when the service has
no compatible `dock` entry; returns the `verified:false` format verdict when
the credential is not Dock-revocation formatted; and otherwise queries the
service with the qualifier-stripped registry id and the hashed revocation
id, translating the boolean into the revoked/pass verdict. The final
biconditional characterises the not-formatted cases: status missing, wrong
type tag, wrong registry qualifier, or non-fixed-width-hex remainder. -/
theorem checkRevocationStatus_spec (blake2 : Nat → String → String)
    (credential : Credential) (api : RevocationApi) :
    (api.dock = none →
      checkRevocationStatus blake2 credential (some api)
        = .error (.error "Only Dock revocation support is present as of now.")) ∧
    (∀ d, api.dock = some d → hasDockRevocation credential = .ok false →
      checkRevocationStatus blake2 credential (some api)
        = .ok { verified := false,
                error := some "The credential status does not have the format required by Dock" }) ∧
    (∀ d cs i, api.dock = some d → credential.credentialStatus = some cs →
      cs.id = some i → hasDockRevocation credential = .ok true →
      checkRevocationStatus blake2 credential (some api)
        = if d.getIsRevoked (jsDrop i DockRevRegQualifier.length)
              (getDockRevIdFromCredential blake2 credential)
          then .ok { verified := false, error := some "Revocation check failed" }
          else .ok { verified := true }) ∧
    (hasDockRevocation credential = .ok false ↔
      credential.credentialStatus = none
      ∨ (∃ cs, credential.credentialStatus = some cs ∧ cs.type ≠ some RevRegType)
      ∨ (∃ cs i, credential.credentialStatus = some cs ∧ cs.type = some RevRegType
          ∧ cs.id = some i
          ∧ (jsStartsWith i DockRevRegQualifier = false
             ∨ isHexWithGivenByteSize (jsDrop i DockRevRegQualifier.length) RevRegIdByteSize
                 = false))) := by
  refine ⟨?_, ?_, ?_, ?_⟩
  · intro h
    simp [checkRevocationStatus, h]
  · intro d hd h
    simp only [checkRevocationStatus, hd, h]
    rfl
  · intro d cs i hd hcs hid hh
    simp only [checkRevocationStatus, hd, hh, hcs, hid]
    cases hrev : d.getIsRevoked (jsDrop i DockRevRegQualifier.length)
        (getDockRevIdFromCredential blake2 credential) <;>
      simp only [hrev, if_true, if_false, Bool.false_eq_true, if_neg] <;> rfl
  · constructor
    · intro h
      cases hcs : credential.credentialStatus with
      | none => exact Or.inl rfl
      | some cs =>
        by_cases htype : cs.type = some RevRegType
        · cases hid : cs.id with
          | none =>
            exfalso
            simp [hasDockRevocation, hcs, htype, hid] at h
          | some i =>
            right; right
            refine ⟨cs, i, rfl, htype, hid, ?_⟩
            simp only [hasDockRevocation, hcs, htype, if_pos, hid] at h
            have hb : (jsStartsWith i DockRevRegQualifier
                && isHexWithGivenByteSize (jsDrop i DockRevRegQualifier.length)
                     RevRegIdByteSize) = false := by
              simpa using h
            rcases Bool.and_eq_false_iff.mp hb with hb' | hb'
            · exact Or.inl hb'
            · exact Or.inr hb'
        · exact Or.inr (Or.inl ⟨cs, rfl, htype⟩)
    · intro h
      rcases h with h | ⟨cs, hcs, htype⟩ | ⟨cs, i, hcs, htype, hid, hb⟩
      · simp [hasDockRevocation, h]
      · simp [hasDockRevocation, hcs, htype]
      · rcases hb with hb | hb <;> simp [hasDockRevocation, hcs, htype, hid, hb]

/-- Witness for C6: a supplied-but-incompatible service throws the
configuration error; a wrong-type status yields the format verdict; a fully
well-formed revoked credential yields the revocation failure verdict. -/
theorem checkRevocationStatus_spec_witness :
    checkRevocationStatus (fun _ _ => "0xhash")
        { id := "cred-a", credentialStatus := none,
          credentialSchema := none, credentialSubject := none }
        (some { dock := none })
      = .error (.error "Only Dock revocation support is present as of now.") ∧
    checkRevocationStatus (fun _ _ => "0xhash")
        { id := "cred-b",
          credentialStatus := some { id := some "foo", type := some "OtherStatusType" },
          credentialSchema := none, credentialSubject := none }
        (some { dock := some { getIsRevoked := fun _ _ => false } })
      = .ok { verified := false,
              error := some "The credential status does not have the format required by Dock" } ∧
    checkRevocationStatus (fun _ _ => "0xhash")
        { id := "cred-c",
          credentialStatus := some
            { id := some "rev-reg:dock:0x0123456789abcdef0123456789abcdef0123456789abcdef0123456789abcdef",
              type := some RevRegType },
          credentialSchema := none, credentialSubject := none }
        (some { dock := some { getIsRevoked := fun _ _ => true } })
      = .ok { verified := false, error := some "Revocation check failed" } :=
  ⟨(checkRevocationStatus_spec _ _ _).1 rfl,
   (checkRevocationStatus_spec _ _ _).2.1 _ rfl rfl,
   (by
     exact ((checkRevocationStatus_spec (fun _ _ => "0xhash")
       { id := "cred-c",
         credentialStatus := some
           { id := some "rev-reg:dock:0x0123456789abcdef0123456789abcdef0123456789abcdef0123456789abcdef",
             type := some RevRegType },
         credentialSchema := none, credentialSubject := none }
       { dock := some { getIsRevoked := fun _ _ => true } }).2.2.1 _ _ _
         rfl rfl rfl rfl).trans rfl)⟩

/-- Reduction of a successful bind in the embedded exception monad. -/
theorem jsBind_ok {α β : Type} (a : α) (f : α → Except JsError β) :
    (Except.ok a : Except JsError α) >>= f = f a := rfl

/-- A thrown computation propagates through bind in the exception monad. -/
theorem jsBind_error {α β : Type} (e : JsError) (f : α → Except JsError β) :
    (Except.error e : Except JsError α) >>= f = Except.error e := rfl

/-- Pure/return in the embedded exception monad. -/
theorem jsPure_eq {α : Type} (a : α) : (pure a : Except JsError α) = Except.ok a := rfl

/-- C1: once the vc-js verification succeeds and a revocation check is
needed, `verifyCredential` returns the failing revocation verdict (or
propagates a thrown revocation error) and never the step-2 success; when
the revocation check passes, or no check is needed, the full step-2 result
is returned. -/
theorem verifyCredential_revocation_override
    (vcjs : Credential → VerificationResult) (blake2 : Nat → String → String)
    (validateFn : Subject → SchemaDoc → Except JsError Unit)
    (credential : Credential) (opts : VerifyOptions)
    (hschema : getAndValidateSchemaIfPresent validateFn credential opts.schemaApi = .ok ())
    (hver : (vcjs credential).verified = true) :
    (isRevocationCheckNeeded credential.credentialStatus opts.forceRevocationCheck
        opts.revocationApi = true →
      (∀ r, checkRevocationStatus blake2 credential opts.revocationApi = .ok r →
        r.verified = false →
        verifyCredential vcjs blake2 validateFn credential opts = .ok r) ∧
      (∀ r, checkRevocationStatus blake2 credential opts.revocationApi = .ok r →
        r.verified = true →
        verifyCredential vcjs blake2 validateFn credential opts = .ok (vcjs credential)) ∧
      (∀ e, checkRevocationStatus blake2 credential opts.revocationApi = .error e →
        verifyCredential vcjs blake2 validateFn credential opts = .error e)) ∧
    (isRevocationCheckNeeded credential.credentialStatus opts.forceRevocationCheck
        opts.revocationApi = false →
      verifyCredential vcjs blake2 validateFn credential opts = .ok (vcjs credential)) := by
  constructor
  · intro hneed
    refine ⟨?_, ?_, ?_⟩
    · intro r hchk hrv
      simp [verifyCredential, hschema, hver, hneed, hchk, hrv, jsBind_ok, jsBind_error,
        jsPure_eq]
    · intro r hchk hrv
      simp [verifyCredential, hschema, hver, hneed, hchk, hrv, jsBind_ok, jsBind_error,
        jsPure_eq]
    · intro e hchk
      simp [verifyCredential, hschema, hver, hneed, hchk, jsBind_ok, jsBind_error, jsPure_eq]
  · intro hneed
    simp [verifyCredential, hschema, hver, hneed, jsBind_ok, jsBind_error, jsPure_eq]

/-- Witness for C1: a concrete revoked credential makes `verifyCredential`
return the revocation failure verdict although the signature oracle
verified. -/
theorem verifyCredential_revocation_override_witness :
    verifyCredential (fun _ => { verified := true }) (fun _ _ => "0xhash")
        (fun _ _ => .ok ())
        { id := "cred-w1",
          credentialStatus := some
            { id := some "rev-reg:dock:0x0123456789abcdef0123456789abcdef0123456789abcdef0123456789abcdef",
              type := some RevRegType },
          credentialSchema := none, credentialSubject := none }
        { forceRevocationCheck := true,
          revocationApi := some { dock := some { getIsRevoked := fun _ _ => true } },
          schemaApi := none }
      = .ok { verified := false, error := some "Revocation check failed" } := by
  exact ((verifyCredential_revocation_override (fun _ => { verified := true })
      (fun _ _ => "0xhash") (fun _ _ => .ok ())
      { id := "cred-w1",
        credentialStatus := some
          { id := some "rev-reg:dock:0x0123456789abcdef0123456789abcdef0123456789abcdef0123456789abcdef",
            type := some RevRegType },
        credentialSchema := none, credentialSubject := none }
      { forceRevocationCheck := true,
        revocationApi := some { dock := some { getIsRevoked := fun _ _ => true } },
        schemaApi := none }
      rfl rfl).1 rfl).1 _ rfl rfl

/-- Counterexample for C2: with a well-formed status, a verifying signature
and no revocation service, `verifyCredential` throws a `TypeError` from
dereferencing the absent service — not the named configuration error the
claim expects. -/
theorem verifyCredential_no_service_counterexample :
    verifyCredential (fun _ => { verified := true }) (fun _ _ => "0xhash")
        (fun _ _ => .ok ())
        { id := "cred-2",
          credentialStatus := some
            { id := some "rev-reg:dock:0x0123456789abcdef0123456789abcdef0123456789abcdef0123456789abcdef",
              type := some RevRegType },
          credentialSchema := none, credentialSubject := none }
        { }
      = .error (.typeError "Cannot read properties of null") ∧
    hasDockRevocation
        { id := "cred-2",
          credentialStatus := some
            { id := some "rev-reg:dock:0x0123456789abcdef0123456789abcdef0123456789abcdef0123456789abcdef",
              type := some RevRegType },
          credentialSchema := none, credentialSubject := none }
      = .ok true ∧
    JsError.typeError "Cannot read properties of null"
      ≠ JsError.error "Only Dock revocation support is present as of now." :=
  ⟨rfl, rfl, by decide⟩

/-- C2 as amended: with a credential carrying a `credentialStatus`, no
revocation service and the default `forceRevocationCheck = true`,
`verifyCredential` throws (a `TypeError` from dereferencing the absent
service rather than a named configuration error) whenever the signature
verifies, and in no case returns a `verified:true` verdict. -/
theorem verifyCredential_no_service_failclosed
    (vcjs : Credential → VerificationResult) (blake2 : Nat → String → String)
    (validateFn : Subject → SchemaDoc → Except JsError Unit)
    (credential : Credential) (sApi : Option SchemaApi)
    (hstatus : credential.credentialStatus.isSome = true)
    (hschema : getAndValidateSchemaIfPresent validateFn credential sApi = .ok ()) :
    ((vcjs credential).verified = true →
      verifyCredential vcjs blake2 validateFn credential
          { forceRevocationCheck := true, revocationApi := none, schemaApi := sApi }
        = .error (.typeError "Cannot read properties of null")) ∧
    (∀ r, verifyCredential vcjs blake2 validateFn credential
          { forceRevocationCheck := true, revocationApi := none, schemaApi := sApi }
        = .ok r → r.verified = false) := by
  have hneed : isRevocationCheckNeeded credential.credentialStatus true none = true := by
    simp [isRevocationCheckNeeded, hstatus]
  have herr : (vcjs credential).verified = true →
      verifyCredential vcjs blake2 validateFn credential
          { forceRevocationCheck := true, revocationApi := none, schemaApi := sApi }
        = .error (.typeError "Cannot read properties of null") := by
    intro hv
    simp [verifyCredential, hschema, hv, hneed, checkRevocationStatus, jsBind_ok,
      jsBind_error, jsPure_eq]
  refine ⟨herr, ?_⟩
  intro r hr
  cases hv : (vcjs credential).verified with
  | true =>
    rw [herr hv] at hr
    exact absurd hr (by simp)
  | false =>
    have : verifyCredential vcjs blake2 validateFn credential
        { forceRevocationCheck := true, revocationApi := none, schemaApi := sApi }
        = .ok (vcjs credential) := by
      simp [verifyCredential, hschema, hv, jsBind_ok, jsBind_error, jsPure_eq]
    rw [this] at hr
    cases hr
    exact hv

/-- Witness for C2 (amended): the concrete credential of the counterexample
instantiates the fail-closed theorem. -/
theorem verifyCredential_no_service_failclosed_witness :
    verifyCredential (fun _ => { verified := true }) (fun _ _ => "0xhash")
        (fun _ _ => .ok ())
        { id := "cred-2b",
          credentialStatus := some { id := some "rev-reg:dock:0xff", type := some RevRegType },
          credentialSchema := none, credentialSubject := none }
        { forceRevocationCheck := true, revocationApi := none, schemaApi := none }
      = .error (.typeError "Cannot read properties of null") :=
  (verifyCredential_no_service_failclosed (fun _ => { verified := true })
    (fun _ _ => "0xhash") (fun _ _ => .ok ())
    { id := "cred-2b",
      credentialStatus := some { id := some "rev-reg:dock:0xff", type := some RevRegType },
      credentialSchema := none, credentialSubject := none }
    none rfl rfl).1 rfl

/-- Counterexample for C3: a credential declaring a `credentialSchema` (with
a subject present), verified with no schema service configured, is silently
skipped — `getAndValidateSchemaIfPresent` succeeds and `verifyCredential`
returns `verified:true` even though the supplied validator rejects every
subject, instead of raising the hard error the claim expects. -/
theorem getAndValidateSchemaIfPresent_skip_counterexample :
    getAndValidateSchemaIfPresent (fun _ _ => .error (.error "subject rejected"))
        { id := "cred-3",
          credentialStatus := none,
          credentialSchema := some { id := "blob:dock:5Schema", type := some "JsonSchemaValidator2018" },
          credentialSubject := some (.single { id := some "did:dock:subj", fields := [("name", "x")] }) }
        none
      = .ok () ∧
    verifyCredential (fun _ => { verified := true }) (fun _ _ => "0xhash")
        (fun _ _ => .error (.error "subject rejected"))
        { id := "cred-3",
          credentialStatus := none,
          credentialSchema := some { id := "blob:dock:5Schema", type := some "JsonSchemaValidator2018" },
          credentialSubject := some (.single { id := some "did:dock:subj", fields := [("name", "x")] }) }
        { forceRevocationCheck := true, revocationApi := none, schemaApi := none }
      = .ok { verified := true } :=
  ⟨rfl, rfl⟩

/-- C3 as amended: the hard error is raised only when a schema service
object is supplied without a compatible `dock` provider; with no schema
service configured at all, the schema check is silently skipped. -/
theorem getAndValidateSchemaIfPresent_service_required
    (validateFn : Subject → SchemaDoc → Except JsError Unit)
    (credential : Credential)
    (hsub : credential.credentialSubject.isSome = true)
    (hsch : credential.credentialSchema.isSome = true) :
    (∀ api : SchemaApi, api.dock = none →
      getAndValidateSchemaIfPresent validateFn credential (some api)
        = .error (.error "Only Dock schemas are supported as of now.")) ∧
    getAndValidateSchemaIfPresent validateFn credential none = .ok () := by
  constructor
  · intro api hapi
    simp [getAndValidateSchemaIfPresent, hsub, hsch, hapi]
  · rfl

/-- Witness for C3 (amended): the counterexample credential with an empty
schema-service object raises the hard error. -/
theorem getAndValidateSchemaIfPresent_service_required_witness :
    getAndValidateSchemaIfPresent (fun _ _ => .ok ())
        { id := "cred-3b",
          credentialStatus := none,
          credentialSchema := some { id := "blob:dock:5Schema", type := none },
          credentialSubject := some (.single { id := none, fields := [] }) }
        (some { dock := none })
      = .error (.error "Only Dock schemas are supported as of now.") :=
  (getAndValidateSchemaIfPresent_service_required (fun _ _ => .ok ())
    { id := "cred-3b",
      credentialStatus := none,
      credentialSchema := some { id := "blob:dock:5Schema", type := none },
      credentialSubject := some (.single { id := none, fields := [] }) }
    rfl rfl).1 { dock := none } rfl

/-- The subject loop succeeds exactly when every subject (id-stripped unless
required) is accepted by the external validator. -/
theorem validateSubjects_ok_iff (validateFn : Subject → SchemaDoc → Except JsError Unit)
    (requiresID : Bool) (target : SchemaDoc) (l : List Subject) :
    validateSubjects validateFn requiresID target l = .ok () ↔
      ∀ s ∈ l, validateFn (if requiresID then s else { s with id := none }) target
        = .ok () := by
  induction l with
  | nil => simp [validateSubjects]
  | cons s rest ih =>
    simp only [validateSubjects]
    cases hv : validateFn (if requiresID then s else { s with id := none }) target with
    | ok u =>
      cases u
      simp [hv, ih]
    | error e =>
      simp [hv]

/-- Counterexample for C9: a credential whose `credentialSubject` is an
empty sequence is not validated element-wise (vacuously passing); the
source's `credentialSubject.length ?` test is falsy on `[]`, so the loop
validates one spread-copied empty subject, and a rejecting schema makes the
validation fail although the sequence has no elements. -/
theorem validateCredentialSchema_empty_seq_counterexample :
    ({ id := "cred-9", credentialStatus := none,
       credentialSchema := some { id := "blob:dock:5S", type := none },
       credentialSubject := some (.seq []) } : Credential).credentialSubject
      = some (.seq []) ∧
    validateCredentialSchema (fun _ _ => .error (.error "required property missing"))
        { id := "cred-9", credentialStatus := none,
          credentialSchema := some { id := "blob:dock:5S", type := none },
          credentialSubject := some (.seq []) }
        (.mk (some ["name"]) none)
      = .error (.error "required property missing") :=
  ⟨rfl, rfl⟩

/-- C9 as amended: validation is applied to each element when
`credentialSubject` is a non-empty sequence and to the single subject
object otherwise, while an empty sequence (like an absent subject) is
validated as a single empty subject object; the `id` property is stripped
from the subject copy before validation unless the schema's `required` list
explicitly contains `id`; the caller's subjects are never mutated (the loop
validates fresh copies; the embedding is pure). -/
theorem validateCredentialSchema_subjects
    (validateFn : Subject → SchemaDoc → Except JsError Unit)
    (credential : Credential) (schema : SchemaDoc) :
    (validateCredentialSchema validateFn credential schema = .ok true ↔
      ∀ s ∈ subjectsOf credential.credentialSubject,
        validateFn (if requiresIDOf schema then s else { s with id := none })
          (schemaTarget schema) = .ok ()) ∧
    (∀ s rest, credential.credentialSubject = some (.seq (s :: rest)) →
      subjectsOf credential.credentialSubject = s :: rest) ∧
    (∀ s, credential.credentialSubject = some (.single s) →
      subjectsOf credential.credentialSubject = [s]) ∧
    (credential.credentialSubject = some (.seq []) →
      subjectsOf credential.credentialSubject = [{ id := none, fields := [] }]) ∧
    (requiresIDOf schema = true ↔ ∃ req, schema.required = some req ∧ "id" ∈ req) := by
  refine ⟨?_, ?_, ?_, ?_, ?_⟩
  · unfold validateCredentialSchema
    cases hv : validateSubjects validateFn (requiresIDOf schema) (schemaTarget schema)
        (subjectsOf credential.credentialSubject) with
    | ok u =>
      cases u
      simpa using (validateSubjects_ok_iff validateFn (requiresIDOf schema)
        (schemaTarget schema) (subjectsOf credential.credentialSubject)).1 hv
    | error e =>
      simp only [reduceCtorEq, false_iff]
      intro hall
      exact absurd ((validateSubjects_ok_iff validateFn (requiresIDOf schema)
        (schemaTarget schema) (subjectsOf credential.credentialSubject)).2 hall)
        (by simp [hv])
  · intro s rest h
    rw [h]
    rfl
  · intro s h
    rw [h]
    rfl
  · intro h
    rw [h]
    rfl
  · unfold requiresIDOf
    cases hr : schema.required with
    | none => simp
    | some req => simp [List.elem_iff]

/-- Witness for C9 (amended): a two-element subject sequence with an
always-accepting validator validates to `true` via the element-wise
characterisation. -/
theorem validateCredentialSchema_subjects_witness :
    validateCredentialSchema (fun _ _ => .ok ())
        { id := "cred-9b", credentialStatus := none, credentialSchema := none,
          credentialSubject := some (.seq [{ id := some "s1", fields := [] },
                                           { id := none, fields := [("a", "b")] }]) }
        (.mk none none)
      = .ok true :=
  (validateCredentialSchema_subjects (fun _ _ => .ok ()) _ _).1.2 (fun _ _ => rfl)

/-- Credentials that pass their per-credential check are skipped by the
loop: processing a concatenation whose prefix all passes reduces to
processing the remainder. -/
theorem presCredLoop_append_pass (blake2 : Nat → String → String)
    (validateFn : Subject → SchemaDoc → Except JsError Unit)
    (forceRevocationCheck : Bool) (revocationApi : Option RevocationApi)
    (schemaApi : Option SchemaApi) (pre l : List Credential)
    (hpre : ∀ c ∈ pre, presCredCheck blake2 validateFn forceRevocationCheck revocationApi
        schemaApi c = .ok none) :
    presCredLoop blake2 validateFn forceRevocationCheck revocationApi schemaApi (pre ++ l)
      = presCredLoop blake2 validateFn forceRevocationCheck revocationApi schemaApi l := by
  induction pre with
  | nil => rfl
  | cons c rest ih =>
    have hc := hpre c (by simp)
    simp only [List.cons_append, presCredLoop, hc]
    exact ih (fun c' hc' => hpre c' (by simp [hc']))

/-- C7: when the envelope proof verifies, the credentials are iterated in
order — for each, the revocation check (when applicable) and then the
schema check — and the first failing per-credential result (or thrown
error) is returned no matter what credentials follow it; when every
credential passes, or the envelope itself fails, the envelope verdict is
returned. The final conjunct shows a failing revocation verdict is
surfaced without consulting the schema oracle at all. -/
theorem verifyPresentation_spec (vcjs : Presentation → VerificationResult)
    (blake2 : Nat → String → String)
    (validateFn : Subject → SchemaDoc → Except JsError Unit) (opts : VerifyOptions) :
    (∀ presentation, (vcjs presentation).verified = false →
      verifyPresentation vcjs blake2 validateFn presentation opts
        = .ok (vcjs presentation)) ∧
    (∀ presentation, (vcjs presentation).verified = true →
      (∀ c ∈ presentation.verifiableCredential,
        presCredCheck blake2 validateFn opts.forceRevocationCheck opts.revocationApi
          opts.schemaApi c = .ok none) →
      verifyPresentation vcjs blake2 validateFn presentation opts
        = .ok (vcjs presentation)) ∧
    (∀ pre c suf res,
      (∀ c' ∈ pre, presCredCheck blake2 validateFn opts.forceRevocationCheck
          opts.revocationApi opts.schemaApi c' = .ok none) →
      presCredCheck blake2 validateFn opts.forceRevocationCheck opts.revocationApi
          opts.schemaApi c = .ok (some res) →
      (vcjs { verifiableCredential := pre ++ c :: suf }).verified = true →
      verifyPresentation vcjs blake2 validateFn
          { verifiableCredential := pre ++ c :: suf } opts = .ok res) ∧
    (∀ pre c suf e,
      (∀ c' ∈ pre, presCredCheck blake2 validateFn opts.forceRevocationCheck
          opts.revocationApi opts.schemaApi c' = .ok none) →
      presCredCheck blake2 validateFn opts.forceRevocationCheck opts.revocationApi
          opts.schemaApi c = .error e →
      (vcjs { verifiableCredential := pre ++ c :: suf }).verified = true →
      verifyPresentation vcjs blake2 validateFn
          { verifiableCredential := pre ++ c :: suf } opts = .error e) ∧
    (∀ c r, isRevocationCheckNeeded c.credentialStatus opts.forceRevocationCheck
        opts.revocationApi = true →
      checkRevocationStatus blake2 c opts.revocationApi = .ok r → r.verified = false →
      ∀ (validateFn' : Subject → SchemaDoc → Except JsError Unit)
        (schemaApi' : Option SchemaApi),
        presCredCheck blake2 validateFn' opts.forceRevocationCheck opts.revocationApi
          schemaApi' c = .ok (some r)) := by
  have hall : ∀ l, (∀ c ∈ l, presCredCheck blake2 validateFn opts.forceRevocationCheck
      opts.revocationApi opts.schemaApi c = .ok none) →
      presCredLoop blake2 validateFn opts.forceRevocationCheck opts.revocationApi
        opts.schemaApi l = .ok none := by
    intro l
    induction l with
    | nil => intro _; rfl
    | cons c rest ih =>
      intro h
      have hc := h c (by simp)
      simp only [presCredLoop, hc]
      exact ih (fun c' hc' => h c' (by simp [hc']))
  refine ⟨?_, ?_, ?_, ?_, ?_⟩
  · intro presentation h
    simp [verifyPresentation, h]
  · intro presentation h hpass
    simp [verifyPresentation, h, hall _ hpass]
  · intro pre c suf res hpre hc hver
    have hloop : presCredLoop blake2 validateFn opts.forceRevocationCheck opts.revocationApi
        opts.schemaApi (pre ++ c :: suf) = .ok (some res) := by
      rw [presCredLoop_append_pass blake2 validateFn opts.forceRevocationCheck
        opts.revocationApi opts.schemaApi pre (c :: suf) hpre]
      simp [presCredLoop, hc]
    simp [verifyPresentation, hver, hloop]
  · intro pre c suf e hpre hc hver
    have hloop : presCredLoop blake2 validateFn opts.forceRevocationCheck opts.revocationApi
        opts.schemaApi (pre ++ c :: suf) = .error e := by
      rw [presCredLoop_append_pass blake2 validateFn opts.forceRevocationCheck
        opts.revocationApi opts.schemaApi pre (c :: suf) hpre]
      simp [presCredLoop, hc]
    simp [verifyPresentation, hver, hloop]
  · intro c r hneed hchk hrv validateFn' schemaApi'
    simp [presCredCheck, hneed, hchk, hrv]

/-- Witness for C7: a two-credential presentation whose first credential is
revoked returns the first credential's failing verdict; the second
credential (which would throw a `TypeError` if its revocation check were
evaluated) is never reached. -/
theorem verifyPresentation_spec_witness :
    verifyPresentation (fun _ => { verified := true }) (fun _ _ => "0xhash")
        (fun _ _ => .ok ())
        { verifiableCredential :=
            [{ id := "cred-r",
               credentialStatus := some
                 { id := some "rev-reg:dock:0x0123456789abcdef0123456789abcdef0123456789abcdef0123456789abcdef",
                   type := some RevRegType },
               credentialSchema := none, credentialSubject := none },
             { id := "cred-poison",
               credentialStatus := some { id := none, type := some RevRegType },
               credentialSchema := none, credentialSubject := none }] }
        { forceRevocationCheck := true,
          revocationApi := some { dock := some { getIsRevoked := fun _ _ => true } },
          schemaApi := none }
      = .ok { verified := false, error := some "Revocation check failed" } := by
  exact (verifyPresentation_spec (fun _ => { verified := true }) (fun _ _ => "0xhash")
      (fun _ _ => .ok ())
      { forceRevocationCheck := true,
        revocationApi := some { dock := some { getIsRevoked := fun _ _ => true } },
        schemaApi := none }).2.2.1 []
      { id := "cred-r",
        credentialStatus := some
          { id := some "rev-reg:dock:0x0123456789abcdef0123456789abcdef0123456789abcdef0123456789abcdef",
            type := some RevRegType },
        credentialSchema := none, credentialSubject := none }
      [{ id := "cred-poison",
         credentialStatus := some { id := none, type := some RevRegType },
         credentialSchema := none, credentialSubject := none }]
      { verified := false, error := some "Revocation check failed" }
      (fun c' hc' => absurd hc' (List.not_mem_nil c'))
      rfl rfl

/-- One-step unfolding of the import loop on a non-empty queue. -/
theorem importLoop_cons (resolveRefs : String → List String) (initialSchemaId : String)
    (fuel : Nat) (registered : List String) (r : String) (rest : List String) :
    importLoop resolveRefs initialSchemaId (fuel + 1) registered (r :: rest)
      = if r = "" then some []
        else if jsStartsWith (rewriteRef r) (initialSchemaId ++ "#/$defs") then
          importLoop resolveRefs initialSchemaId fuel registered rest
        else
          match importLoop resolveRefs initialSchemaId fuel (rewriteRef r :: registered)
              (rest ++ ((resolveRefs (rewriteRef r)).dedup).filter
                (fun x => decide (x ∉ (rewriteRef r :: registered)) && decide (x ∉ rest))) with
          | none => none
          | some log => some (rewriteRef r :: log) := rfl

/-- A queue whose references all live under the root schema's own
internal-definitions namespace is drained without any resolution: that
run completes with an empty fetch log and fuel linear in the queue. -/
theorem importLoop_defs_only (resolveRefs : String → List String)
    (initialSchemaId : String) (registered : List String) (queue : List String)
    (h : ∀ r ∈ queue, jsStartsWith r "blob:dock/:" = false ∧
      jsStartsWith r (initialSchemaId ++ "#/$defs") = true) :
    importLoop resolveRefs initialSchemaId (queue.length + 1) registered queue
      = some [] := by
  induction queue with
  | nil => rfl
  | cons r rest ih =>
    obtain ⟨h1, h2⟩ := h r (by simp)
    have hrw : rewriteRef r = r := by simp [rewriteRef, h1]
    by_cases hre : r = ""
    · simp [importLoop, hre]
    · have hrec := ih (fun x hx => h x (by simp [hx]))
      simp only [List.length_cons]
      rw [importLoop_cons, if_neg hre, hrw, if_pos h2]
      exact hrec

/-- Sandboxed termination of the import loop: when every reference that can
ever be produced lives in the finite universe `U` (in canonical, already
rewritten form), and the queue satisfies the validator's invariants (no
duplicates, nothing already registered), some fuel completes the import. -/
theorem importLoop_terminates (resolveRefs : String → List String)
    (initialSchemaId : String) (U : List String)
    (hres : ∀ id x, x ∈ resolveRefs id → x ∈ U ∧ jsStartsWith x "blob:dock/:" = false) :
    ∀ registered queue, queue.Nodup →
    (∀ r ∈ queue, r ∈ U ∧ r ∉ registered ∧ jsStartsWith r "blob:dock/:" = false) →
    ∃ n log, importLoop resolveRefs initialSchemaId n registered queue = some log := by
  suffices H : ∀ m registered queue, importMeasure U registered queue ≤ m →
      queue.Nodup →
      (∀ r ∈ queue, r ∈ U ∧ r ∉ registered ∧ jsStartsWith r "blob:dock/:" = false) →
      ∃ n log, importLoop resolveRefs initialSchemaId n registered queue = some log by
    intro registered queue h1 h2
    exact H (importMeasure U registered queue) registered queue le_rfl h1 h2
  intro m
  induction m with
  | zero =>
    intro registered queue hm hnd hinv
    have hq : queue = [] := by
      have hlen : queue.length = 0 := by
        unfold importMeasure at hm
        omega
      exact List.length_eq_zero.mp hlen
    subst hq
    exact ⟨1, [], rfl⟩
  | succ m ih =>
    intro registered queue hm hnd hinv
    cases queue with
    | nil => exact ⟨1, [], rfl⟩
    | cons r rest =>
      by_cases hre : r = ""
      · exact ⟨1, [], by simp [importLoop, hre]⟩
      · obtain ⟨hU, hreg, hslash⟩ := hinv r (by simp)
        have hrw : rewriteRef r = r := by simp [rewriteRef, hslash]
        by_cases hdefs : jsStartsWith r (initialSchemaId ++ "#/$defs") = true
        · have hm' : importMeasure U registered rest ≤ m := by
            unfold importMeasure at hm ⊢
            simp only [List.length_cons] at hm
            omega
          obtain ⟨n, log, hn⟩ :=
            ih registered rest hm' hnd.of_cons (fun x hx => hinv x (by simp [hx]))
          refine ⟨n + 1, log, ?_⟩
          rw [importLoop_cons, if_neg hre, hrw, if_pos hdefs]
          exact hn
        · have hdefs' : jsStartsWith r (initialSchemaId ++ "#/$defs") = false :=
            Bool.not_eq_true _ ▸ eq_false_of_ne_true hdefs
          have hrrest : r ∉ rest := (List.nodup_cons.mp hnd).1
          have hndrest : rest.Nodup := (List.nodup_cons.mp hnd).2
          refine ?_
          -- the fresh references enqueued by registering r
          have hfresh_mem : ∀ x, x ∈ ((resolveRefs r).dedup).filter
              (fun x => decide (x ∉ (r :: registered)) && decide (x ∉ rest)) →
              x ∈ resolveRefs r ∧ x ∉ (r :: registered) ∧ x ∉ rest := by
            intro x hx
            have hx' := List.mem_filter.mp hx
            refine ⟨List.mem_dedup.mp hx'.1, ?_, ?_⟩
            · have := hx'.2
              simp only [Bool.and_eq_true, decide_eq_true_eq] at this
              exact this.1
            · have := hx'.2
              simp only [Bool.and_eq_true, decide_eq_true_eq] at this
              exact this.2
          have hfresh_nd : (((resolveRefs r).dedup).filter
              (fun x => decide (x ∉ (r :: registered)) && decide (x ∉ rest))).Nodup :=
            ((resolveRefs r).nodup_dedup).filter _
          -- invariants for the recursive state
          have hnd' : (rest ++ ((resolveRefs r).dedup).filter
              (fun x => decide (x ∉ (r :: registered)) && decide (x ∉ rest))).Nodup := by
            refine List.Nodup.append hndrest hfresh_nd ?_
            intro x hx1 hx2
            exact (hfresh_mem x hx2).2.2 hx1
          have hinv' : ∀ x ∈ rest ++ ((resolveRefs r).dedup).filter
              (fun x => decide (x ∉ (r :: registered)) && decide (x ∉ rest)),
              x ∈ U ∧ x ∉ (r :: registered) ∧ jsStartsWith x "blob:dock/:" = false := by
            intro x hx
            rcases List.mem_append.mp hx with hx | hx
            · obtain ⟨h1, h2, h3⟩ := hinv x (by simp [hx])
              refine ⟨h1, ?_, h3⟩
              intro hmem
              rcases List.mem_cons.mp hmem with hmem | hmem
              · exact hrrest (hmem ▸ hx)
              · exact h2 hmem
            · obtain ⟨h1, h2, h3⟩ := hfresh_mem x hx
              obtain ⟨hxu, hxs⟩ := hres r x h1
              exact ⟨hxu, h2, hxs⟩
          -- the measure strictly decreases
          have hm' : importMeasure U (r :: registered) (rest ++ ((resolveRefs r).dedup).filter
              (fun x => decide (x ∉ (r :: registered)) && decide (x ∉ rest))) ≤ m := by
            have hrU : r ∈ U.toFinset := List.mem_toFinset.mpr hU
            have hrreg : r ∉ registered.toFinset := fun hh => hreg (List.mem_toFinset.mp hh)
            have hrd : r ∈ U.toFinset \ registered.toFinset :=
              Finset.mem_sdiff.mpr ⟨hrU, hrreg⟩
            have hsd : U.toFinset \ (r :: registered).toFinset
                = (U.toFinset \ registered.toFinset).erase r := by
              ext x
              simp only [List.toFinset_cons, Finset.mem_sdiff, Finset.mem_insert,
                Finset.mem_erase]
              tauto
            have hcard : (U.toFinset \ (r :: registered).toFinset).card
                = (U.toFinset \ registered.toFinset).card - 1 := by
              rw [hsd, Finset.card_erase_of_mem hrd]
            have hA : 1 ≤ (U.toFinset \ registered.toFinset).card :=
              Finset.card_pos.mpr ⟨r, hrd⟩
            have hflen : (((resolveRefs r).dedup).filter
                (fun x => decide (x ∉ (r :: registered)) && decide (x ∉ rest))).length
                ≤ U.toFinset.card := by
              have hsub : (((resolveRefs r).dedup).filter
                  (fun x => decide (x ∉ (r :: registered)) && decide (x ∉ rest))).toFinset
                  ⊆ U.toFinset := by
                intro x hx
                have hx' := List.mem_toFinset.mp hx
                exact List.mem_toFinset.mpr (hres r x (hfresh_mem x hx').1).1
              calc (((resolveRefs r).dedup).filter
                  (fun x => decide (x ∉ (r :: registered)) && decide (x ∉ rest))).length
                  = (((resolveRefs r).dedup).filter
                    (fun x => decide (x ∉ (r :: registered)) && decide (x ∉ rest))).toFinset.card :=
                    (List.toFinset_card_of_nodup hfresh_nd).symm
                _ ≤ U.toFinset.card := Finset.card_le_card hsub
            unfold importMeasure at hm ⊢
            rw [hcard]
            set A := (U.toFinset \ registered.toFinset).card with hAdef
            set c := U.toFinset.card with hcdef
            have hexp : (A - 1) * (c + 1) = A * (c + 1) - (c + 1) := by
              rw [Nat.sub_mul, Nat.one_mul]
            have hPg : c + 1 ≤ A * (c + 1) := Nat.le_mul_of_pos_left (c + 1) hA
            simp only [List.length_append, List.length_cons] at hm ⊢
            omega
          obtain ⟨n, log, hn⟩ := ih (r :: registered) _ hm' hnd' hinv'
          refine ⟨n + 1, r :: log, ?_⟩
          rw [importLoop_cons, if_neg hre, hrw, if_neg hdefs, hn]

/-- C8, as amended: the schema import terminates whenever every reference
reachable through resolution stays inside a finite universe of
(canonical-form) identifiers — the validator, per the spec, never re-queues
a reference once registered, but that no-reintroduction property alone does
not bound the run (see the fresh-chain counterexample below); and a root
schema whose unresolved references all fall under its own
internal-definitions namespace completes with an empty fetch log (no
external resolution at all). -/
theorem updateSchemaValidatorWithSchemas_terminates :
    (∀ (resolveRefs : String → List String) (rootId : Option String)
        (rootRefs : List String) (U : List String),
      (∀ id x, x ∈ resolveRefs id → x ∈ U ∧ jsStartsWith x "blob:dock/:" = false) →
      (∀ r ∈ rootRefs, r ∈ U ∧ jsStartsWith r "blob:dock/:" = false) →
      ∃ fuel log, updateSchemaValidatorWithSchemas resolveRefs rootId rootRefs fuel
        = some log) ∧
    (∀ (resolveRefs : String → List String) (rootId : Option String)
        (rootRefs : List String),
      (∀ r ∈ rootRefs, jsStartsWith r "blob:dock/:" = false ∧
        jsStartsWith r (initialIdOf rootId ++ "#/$defs")
          = true) →
      ∃ fuel, updateSchemaValidatorWithSchemas resolveRefs rootId rootRefs fuel
        = some []) := by
  constructor
  · intro resolveRefs rootId rootRefs U hres hroot
    obtain ⟨n, log, hn⟩ := importLoop_terminates resolveRefs
      (initialIdOf rootId) U hres
      [initialIdOf rootId]
      ((rootRefs.dedup).filter
        (fun x => decide (x ≠ initialIdOf rootId)))
      ((rootRefs.nodup_dedup).filter _)
      (by
        intro r hr
        have hr' := List.mem_filter.mp hr
        have hrmem := List.mem_dedup.mp hr'.1
        have hrne : r ≠ initialIdOf rootId := by
          simpa using hr'.2
        obtain ⟨h1, h2⟩ := hroot r hrmem
        exact ⟨h1, by simpa using hrne, h2⟩)
    exact ⟨n, log, hn⟩
  · intro resolveRefs rootId rootRefs h
    refine ⟨((rootRefs.dedup).filter
      (fun x => decide (x ≠ initialIdOf rootId))).length + 1,
      ?_⟩
    exact importLoop_defs_only resolveRefs
      (initialIdOf rootId)
      [initialIdOf rootId]
      ((rootRefs.dedup).filter
        (fun x => decide (x ≠ initialIdOf rootId)))
      (by
        intro r hr
        have hr' := List.mem_filter.mp hr
        exact h r (List.mem_dedup.mp hr'.1))

/-- Witness for C8: a root schema with one external reference in a
one-element universe imports to completion, and a root schema whose only
reference lies under its own `#/$defs` namespace completes with an empty
fetch log. -/
theorem updateSchemaValidatorWithSchemas_terminates_witness :
    (∃ fuel log, updateSchemaValidatorWithSchemas (fun _ => []) (some "blob:dock:5Root")
        ["blob:dock:5Dep"] fuel = some log) ∧
    (∃ fuel, updateSchemaValidatorWithSchemas (fun _ => []) (some "blob:dock:5Root")
        ["blob:dock:5Root#/$defs/uri"] fuel = some []) :=
  ⟨updateSchemaValidatorWithSchemas_terminates.1 (fun _ => []) (some "blob:dock:5Root")
      ["blob:dock:5Dep"] ["blob:dock:5Dep"]
      (by intro id x hx; simp at hx)
      (by
        intro r hr
        simp only [List.mem_singleton] at hr
        subst hr
        exact ⟨by simp, by decide⟩),
   updateSchemaValidatorWithSchemas_terminates.2 (fun _ => []) (some "blob:dock:5Root")
      ["blob:dock:5Root#/$defs/uri"]
      (by
        intro r hr
        simp only [List.mem_singleton] at hr
        subst hr
        exact ⟨by decide, by decide⟩)⟩

/-- A string cannot start with a pattern whose first character differs from
the string's own first character. -/
theorem jsStartsWith_head_ne (s p : String) (c d : Char) (cs ds : List Char)
    (hs : s.data = c :: cs) (hp : p.data = d :: ds) (h : (d == c) = false) :
    jsStartsWith s p = false := by
  simp [jsStartsWith, hs, hp, List.isPrefixOf, h]

/-- Against the fresh-chain resolver the import loop never finishes: from a
singleton queue holding an identifier that begins with `a` (with the root
registered under `r` and everything registered so far shorter than the
queued identifier), every resolution step registers the popped identifier
and enqueues the strictly longer fresh reference, so every fuel runs out. -/
theorem importLoop_fresh_chain (fuel : Nat) :
    ∀ (registered : List String) (s : String) (t : List Char),
    s.data = 'a' :: t → (∀ u ∈ registered, u.length < s.length) →
    importLoop freshChainResolver "r" fuel registered [s] = none := by
  induction fuel with
  | zero =>
    intro registered s t hs hreg
    rfl
  | succ fuel ih =>
    intro registered s t hs hreg
    have hne : s ≠ "" := by
      intro h
      rw [h] at hs
      simp at hs
    have hslash : jsStartsWith s "blob:dock/:" = false :=
      jsStartsWith_head_ne s _ 'a' 'b' t _ hs rfl (by decide)
    have hrw : rewriteRef s = s := by simp [rewriteRef, hslash]
    have hdefs : jsStartsWith s "r#/$defs" = false :=
      jsStartsWith_head_ne s _ 'a' 'r' t _ hs rfl (by decide)
    have hlen : (s ++ "!").length = s.length + 1 := by
      show (s.data ++ ['!']).length = s.data.length + 1
      simp
    have h1 : ¬ (s ++ "!") = s := by
      intro h
      have hl := congrArg String.length h
      rw [hlen] at hl
      omega
    have h2 : (s ++ "!") ∉ registered := by
      intro hmem
      have hl := hreg _ hmem
      rw [hlen] at hl
      omega
    have hq : (([s ++ "!"] : List String).dedup).filter
        (fun x => decide (x ∉ (s :: registered)) && decide (x ∉ ([] : List String)))
        = [s ++ "!"] := by
      simp [h1, h2]
    have hdata : (s ++ "!").data = 'a' :: (t ++ ['!']) := by
      show s.data ++ ['!'] = 'a' :: (t ++ ['!'])
      rw [hs]
      rfl
    have hlens : ∀ u ∈ (s :: registered), u.length < (s ++ "!").length := by
      intro u hu
      rw [hlen]
      rcases List.mem_cons.mp hu with hu | hu
      · rw [hu]
        omega
      · have := hreg _ hu
        omega
    have hrec := ih (s :: registered) (s ++ "!") (t ++ ['!']) hdata hlens
    rw [importLoop_cons, if_neg hne, hrw, if_neg (by simp [hdefs])]
    have hores : freshChainResolver s = [s ++ "!"] := rfl
    rw [hores]
    simp only [List.nil_append]
    rw [hq, hrec]

/-- Counterexample for C8: the fresh-chain resolver never reintroduces an
already-seen identifier as a new unresolved reference (every resolution
yields a single brand-new, strictly longer identifier), yet the import of a
root schema `r` with the single reference `aa` exhausts every fuel — the
loop, like the source recursion it embeds, would fetch ever-fresh schema
ids forever, refuting termination under the claim's condition alone. -/
theorem updateSchemaValidatorWithSchemas_fresh_chain_counterexample :
    (∀ s : String, s ++ "!" ≠ s) ∧
    (∀ fuel, updateSchemaValidatorWithSchemas freshChainResolver (some "r") ["aa"] fuel
      = none) := by
  constructor
  · intro s h
    have hlen : (s ++ "!").length = s.length + 1 := by
      show (s.data ++ ['!']).length = s.data.length + 1
      simp
    have hl := congrArg String.length h
    rw [hlen] at hl
    omega
  · intro fuel
    have h0 : updateSchemaValidatorWithSchemas freshChainResolver (some "r") ["aa"] fuel
        = importLoop freshChainResolver "r" fuel ["r"] ["aa"] := rfl
    rw [h0]
    exact importLoop_fresh_chain fuel ["r"] "aa" ['a'] rfl (by decide)
